import Mathlib

/-!
Shallow embedding of the resource-lifecycle, health-monitoring and
navigation-recovery subsystem of playwright-devtools-mcp.

Sources embedded:
* `src/utils/data-collector.js` — `ConsoleCollector`, `NetworkCollector`,
  `PerformanceCollector` (telemetry ring buffers and their queries);
* `src/utils/browser-manager.js` — `BrowserManager` (context pool,
  live-page counter, collectors map, disconnect/cleanup handlers);
* the health/guard module (`BrowserHealthChecker`, `NavigationGuard`);
* `src/tools/browser.js` — the plain `browser_navigate` handler.

Modelling conventions: ids minted from `Date.now()+random` are modelled by a
monotone `nextId` counter (the property used is freshness, which the source
relies on as collision-negligible); JS `Map` objects are association lists
observed only through get/set/delete; asynchronous outcomes of the external
platform (page responsiveness probes, `page.goto` settling) are explicit
boolean parameters; JS falsy checks on numbers/strings (`if (options.limit)`)
are modelled by testing for `0` / `""` under `some`.
-/

namespace PDM

/-! ### JS Map as an association list (get / set / delete) -/

def mapGet : List (Nat × Nat) → Nat → Option Nat
  | [], _ => none
  | p :: ps, k => if p.1 = k then some p.2 else mapGet ps k

def mapDelete (m : List (Nat × Nat)) (k : Nat) : List (Nat × Nat) :=
  m.filter (fun p => p.1 ≠ k)

def mapSet (m : List (Nat × Nat)) (k v : Nat) : List (Nat × Nat) :=
  (k, v) :: mapDelete m k

/-! ### Case-insensitive substring containment

Models `hay.toLowerCase().includes(needle.toLowerCase())` from the query
paths of both collectors. -/

def lowerChars (s : String) : List Char := s.toList.map Char.toLower

def containsSub (hay needle : String) : Bool :=
  (lowerChars hay).tails.any (fun t => (lowerChars needle).isPrefixOf t)

/-! ### Telemetry ring buffers (`data-collector.js`)

`addLog` / `addRequest` / `addEntry` all follow the same shape:
push the entry, then `this.xs = this.xs.slice(-max)` once `xs.length > max`.
For a positive literal `max`, `slice(-max)` keeps the last `max` elements,
i.e. drops `length - max` from the front.  The per-entry generated `id`
field does not influence order or eviction, so entries are kept opaque. -/

def ringAdd (maxN : Nat) (l : List α) (e : α) : List α :=
  let l2 := l ++ [e]
  if maxN < l2.length then l2.drop (l2.length - maxN) else l2

/-- Appending a whole sequence of entries, one `ringAdd` at a time. -/
def ringAddAll (maxN : Nat) (l : List α) (es : List α) : List α :=
  es.foldl (ringAdd maxN) l

/-- The configured maximum of `ConsoleCollector` (`this.maxLogs = 1000`). -/
def consoleMaxLogs : Nat := 1000

/-- The configured maximum of `NetworkCollector` (`this.maxRequests = 500`). -/
def networkMaxRequests : Nat := 500

/-- The configured maximum of `PerformanceCollector` (100 entries kept). -/
def performanceMaxEntries : Nat := 100

/-! ### Health Checker (`BrowserHealthChecker`)

A page is abstracted to the two observations the checker makes of it:
whether `page.isClosed()` already reports it closed, and whether the
bounded liveness probe (`page.evaluate` raced against a timeout) settles
successfully.  `checkContextHealth` receives the result of
`browserManager.getContext`: `none` models the lookup throwing
(`Browser context not found`), which the `catch` turns into a synthetic
record.  The `contextId`/`timestamp` fields of the record play no part in
any claim and are omitted. -/

structure HPage where
  closed : Bool
  responsive : Bool
deriving Repr, DecidableEq

structure Health where
  isHealthy : Bool
  issues : List String
  pages : Nat
  activePages : Nat
  zombiePages : Nat
deriving Repr, DecidableEq

/-- Per-page body of the `for (const page of pages)` loop in
`checkContextHealth`. -/
def healthPageStep (h : Health) (p : HPage) : Health :=
  if p.closed then
    { h with zombiePages := h.zombiePages + 1,
             issues := h.issues ++ ["Closed page found"] }
  else if p.responsive then
    { h with activePages := h.activePages + 1 }
  else
    { h with zombiePages := h.zombiePages + 1,
             issues := h.issues ++ ["Page unresponsive: timeout"] }

/-- The body of the `try` block of `checkContextHealth`, applied to the
pages of a successfully looked-up context. -/
def checkPagesHealth (ps : List HPage) : Health :=
  let h0 : Health := ⟨true, [], ps.length, 0, 0⟩
  let h := ps.foldl healthPageStep h0
  if h.zombiePages > 0 ∨ h.activePages = 0 then
    { h with isHealthy := false,
             issues := h.issues ++ ["Context has unresponsive or no active pages"] }
  else h

/-- Function `checkContextHealth`, over the outcome of the context lookup.  `none`
is the `catch` branch: a synthetic unhealthy record instead of a thrown
error. -/
def checkContextHealth (res : Option (List HPage)) : Health :=
  match res with
  | some ps => checkPagesHealth ps
  | none => ⟨false, ["Context check failed: Browser context not found"], 0, 0, 0⟩

/-- Lookup in the pool of contexts as the health checker sees it:
a context id bound to the observable states of its pages. -/
def hpoolGet : List (Nat × List HPage) → Nat → Option (List HPage)
  | [], _ => none
  | p :: ps, k => if p.1 = k then some p.2 else hpoolGet ps k

/-- Function `checkContextHealth` at the pool level: look the context up, falling
into the `catch` branch when the id is unknown. -/
def checkHealthOf (pool : List (Nat × List HPage)) (cid : Nat) : Health :=
  checkContextHealth (hpoolGet pool cid)

structure HealResult where
  healed : Bool
  reason : String
deriving Repr, DecidableEq

/-- One page of the `autoHealContext` remediation loop: an open page that
fails the shorter probe is closed (`page.close()`), all others are kept. -/
def healKeep (p : HPage) : Bool := p.closed || p.responsive

/-- Function `autoHealContext`: re-check health; if healthy, short-circuit without
touching any page; otherwise close every open unresponsive page, and
re-check if any page was closed.  Returns the result together with the
pool after any page closures. -/
def autoHealContext (pool : List (Nat × List HPage)) (cid : Nat) :
    HealResult × List (Nat × List HPage) :=
  let h := checkHealthOf pool cid
  if h.isHealthy then
    ({ healed := false, reason := "Context is healthy" }, pool)
  else
    match hpoolGet pool cid with
    | none =>
      ({ healed := false,
         reason := "Heal attempt failed: Browser context not found" }, pool)
    | some ps =>
      let closedPages := ps.countP (fun p => !healKeep p)
      if 0 < closedPages then
        let ps2 := ps.filter healKeep
        let pool2 := pool.map (fun q => if q.1 = cid then (q.1, ps2) else q)
        let newHealth := checkPagesHealth ps2
        ({ healed := newHealth.isHealthy,
           reason := "Closed unresponsive pages" }, pool2)
      else
        ({ healed := false, reason := "Could not heal context automatically" },
         pool)

/-- Count of pages the checker classifies as zombies: already closed, or
open but failing the probe. -/
def zombieCount (ps : List HPage) : Nat :=
  ps.countP (fun p => p.closed || !p.responsive)

/-- Count of pages the checker classifies as active: open and passing the
probe. -/
def activeCount (ps : List HPage) : Nat :=
  ps.countP (fun p => !p.closed && p.responsive)

/-! ### Resource Manager (`BrowserManager`)

State of the singleton: the root browser handle (up or not), the
`contexts` map and the `dataCollectors` map (only their key sets matter
to the claims, kept as lists of ids in insertion order), the shared
`activePages` counter, the set of pages whose `close` handler has not yet
fired (tagged by owning context), and the fresh-id source.  The counter
is carried as an `Int` so that the `Math.max(0, activePages - 1)` clamp
in the page-close handler is a real operation rather than a vacuity of
`Nat` subtraction. -/

structure BM where
  browserUp : Bool
  contexts : List Nat
  collectors : List Nat
  activePages : Int
  openPages : List (Nat × Nat)
  nextId : Nat
deriving Repr, DecidableEq

def BM.init : BM := ⟨false, [], [], 0, [], 0⟩

/-- Method `launchBrowser`: idempotent, returns the existing handle if one is up. -/
def BM.launchBrowser (st : BM) : BM :=
  if st.browserUp then st else { st with browserUp := true }

/-- The `browser.on('disconnected')` handler: `this.browser = null;
this.contexts.clear(); this.activePages = 0;` — note that
`this.dataCollectors` is NOT touched. -/
def BM.disconnect (st : BM) : BM :=
  if st.browserUp then
    { st with browserUp := false, contexts := [], activePages := 0 }
  else st

/-- Method `createContext`: launch if needed, mint a fresh id, register the
context and its collector set together. -/
def BM.createContext (st : BM) : Nat × BM :=
  let st1 := st.launchBrowser
  let cid := st1.nextId
  (cid, { st1 with contexts := st1.contexts ++ [cid],
                   collectors := st1.collectors ++ [cid],
                   nextId := st1.nextId + 1 })

/-- The `page.on('close')` handler body: `this.activePages =
Math.max(0, this.activePages - 1)`. -/
def BM.decPage (st : BM) : BM :=
  { st with activePages := max 0 (st.activePages - 1) }

/-- Method `closeContext`: if the id is registered, `context.close()` fires the
close handler of every still-open page of that context, then both map
entries are removed.  Unknown ids are a no-op (idempotence). -/
def BM.closeContext (st : BM) (cid : Nat) : BM :=
  if st.contexts.contains cid then
    let mine := st.openPages.filter (fun p => p.1 == cid)
    let st1 := mine.foldl (fun s _ => s.decPage) st
    { st1 with contexts := st1.contexts.filter (fun c => !(c == cid)),
               collectors := st1.collectors.filter (fun c => !(c == cid)),
               openPages := st1.openPages.filter (fun p => !(p.1 == cid)) }
  else st

/-- Method `createPage`: look the context up (unknown id throws `NotFound`),
fail fast with the capacity error when `activePages >=
maxConcurrentPages`, otherwise open a page and increment the counter. -/
def BM.createPage (maxPages : Nat) (st : BM) (cid : Nat) :
    Except String Nat × BM :=
  if st.contexts.contains cid then
    if (maxPages : Int) ≤ st.activePages then
      (Except.error "CapacityExceeded", st)
    else
      let pid := st.nextId
      (Except.ok pid,
       { st with activePages := st.activePages + 1,
                 openPages := st.openPages ++ [(cid, pid)],
                 nextId := st.nextId + 1 })
  else (Except.error "NotFound", st)

/-- Delivery of a page `close` event.  The handler is attached once per
created page and the platform fires it once, when that page closes: a
pid no longer in `openPages` has already had its event delivered (or
belonged to a context torn down by `closeContext`) and nothing runs. -/
def BM.pageClose (st : BM) (pid : Nat) : BM :=
  if st.openPages.any (fun p => p.2 == pid) then
    { st.decPage with openPages := st.openPages.filter (fun p => !(p.2 == pid)) }
  else st

/-- Method `cleanup`: close every context, close the browser, zero the counter
and clear all collectors.  Pages whose close events have not yet been
delivered may still fire them later (they hit the clamp). -/
def BM.cleanup (st : BM) : BM :=
  let st1 := st.contexts.foldl BM.closeContext st
  { st1 with browserUp := false, activePages := 0, collectors := [] }

/-- External events driving the pool. -/
inductive Ev where
  | createCtx
  | closeCtx (cid : Nat)
  | createPg (cid : Nat)
  | pgClose (pid : Nat)
  | cleanup
  | disconnect
deriving Repr, DecidableEq

def BM.step (maxPages : Nat) (st : BM) (e : Ev) : BM :=
  match e with
  | .createCtx => (st.createContext).2
  | .closeCtx cid => st.closeContext cid
  | .createPg cid => (st.createPage maxPages cid).2
  | .pgClose pid => st.pageClose pid
  | .cleanup => st.cleanup
  | .disconnect => st.disconnect

def BM.run (maxPages : Nat) (st : BM) (es : List Ev) : BM :=
  es.foldl (BM.step maxPages) st

/-! ### The live-child accounting invariant

Events other than `cleanup` and `disconnect` (which deliberately zero the
counter while pages may still be dying) keep the counter equal to the
number of open pages.  Page ids are pairwise distinct because they come
from the monotone fresh-id source — both facts are carried in the
invariant. -/

def Ev.lifecycle : Ev → Bool
  | .cleanup => false
  | .disconnect => false
  | _ => true

def InvC6 (st : BM) : Prop :=
  st.activePages = (st.openPages.length : Int)
  ∧ (∀ p ∈ st.openPages, p.2 < st.nextId)
  ∧ st.openPages.Pairwise (fun a b => a.2 ≠ b.2)

instance (st : BM) : Decidable (InvC6 st) := by
  unfold InvC6
  infer_instance

/-! ### Navigation Guard (`NavigationGuard`) and the plain navigate tool

`Guard` is the runtime state the guard and the `browser_navigate` handler
share: the `BrowserManager` singleton and the guard's
`navigationAttempts` map (the handler reads and writes the very same
map through `browserManager.navigationGuard`).

The outcomes of the asynchronous platform calls made inside one
`safeNavigate` invocation are abstracted into `NavEnv`: the verdict of
the `checkContextHealth` call, the verdict of `autoHealContext` when it
runs, and whether the `page.goto` + responsiveness probe of the `try`
block settles successfully.  (The page closures `autoHealContext` may
perform concern page objects, which the guard state does not track.) -/

structure Guard where
  bm : BM
  navMap : List (Nat × Nat)
deriving Repr, DecidableEq

structure NavEnv where
  healthy : Bool
  healed : Bool
  navOk : Bool
deriving Repr, DecidableEq

inductive NavAction where
  | contextRecreated
  | healthCheckFailed
  | navigationSuccess
  | maxAttemptsReached
  | navigationFailed
deriving Repr, DecidableEq

structure NavResult where
  success : Bool
  action : NavAction
  attempts : Nat
  willRetry : Bool
  useNewContextId : Option Nat
  navAttempted : Bool
deriving Repr, DecidableEq

/-- Function `forceRecreateContext`: close the problematic context (best effort),
create a fresh one.  In the model the underlying launch and context
creation succeed, so the recreation reports success with the new id. -/
def forceRecreateContext (st : Guard) (cid : Nat) : (Bool × Nat) × Guard :=
  let bm1 := st.bm.closeContext cid
  ((true, (bm1.createContext).1), { st with bm := (bm1.createContext).2 })

/-- The `catch` branch of `safeNavigate`: failure bookkeeping for one
attempt.  `navigationAttempts` was already bumped at entry, so the state
is returned unchanged here. -/
def navFailResult (st : Guard) (maxAttempts attempts : Nat) :
    NavResult × Guard :=
  if maxAttempts ≤ attempts + 1 then
    ({ success := false, action := .maxAttemptsReached,
       attempts := attempts + 1, willRetry := false,
       useNewContextId := none, navAttempted := true }, st)
  else
    ({ success := false, action := .navigationFailed,
       attempts := attempts + 1,
       willRetry := decide (attempts + 1 < maxAttempts),
       useNewContextId := none, navAttempted := true }, st)

/-- The health-check-then-navigate tail of `safeNavigate` (everything
after the force-recreate gate). -/
def safeNavigateTail (env : NavEnv) (maxPages : Nat) (st : Guard)
    (cid : Nat) (maxAttempts attempts : Nat) : NavResult × Guard :=
  if !env.healthy && !env.healed then
    ({ success := false, action := .healthCheckFailed, attempts := 0,
       willRetry := false, useNewContextId := none,
       navAttempted := false }, st)
  else
    let pr := st.bm.createPage maxPages cid
    let st1 : Guard := { st with bm := pr.2 }
    match pr.1 with
    | .error _ => navFailResult st1 maxAttempts attempts
    | .ok _ =>
      if env.navOk then
        ({ success := true, action := .navigationSuccess,
           attempts := attempts + 1, willRetry := false,
           useNewContextId := none, navAttempted := true },
         { st1 with navMap := mapSet st1.navMap cid 0 })
      else navFailResult st1 maxAttempts attempts

/-- Method `NavigationGuard.safeNavigate` with explicit `maxAttempts` /
`forceRecreateThreshold` (the source defaults them to 3 and 2 with
`||`).  Reads the attempt counter, stores `attempts + 1`, and fires the
recreation gate on the value read. -/
def safeNavigate (env : NavEnv) (maxPages : Nat) (st : Guard) (cid : Nat)
    (maxAttempts forceRecreateThreshold : Nat) : NavResult × Guard :=
  let attempts := (mapGet st.navMap cid).getD 0
  let st1 : Guard := { st with navMap := mapSet st.navMap cid (attempts + 1) }
  if forceRecreateThreshold ≤ attempts then
    let fr := forceRecreateContext st1 cid
    if fr.1.1 then
      ({ success := true, action := .contextRecreated, attempts := 0,
         willRetry := false, useNewContextId := some fr.1.2,
         navAttempted := false },
       { fr.2 with navMap := mapSet (mapDelete (fr.2).navMap cid) fr.1.2 0 })
    else safeNavigateTail env maxPages fr.2 cid maxAttempts attempts
  else safeNavigateTail env maxPages st1 cid maxAttempts attempts

/-- Result shape of the `browser_navigate` tool handler: the fields of
the claims (success flag, error code, suggestion text, reported attempt
count). -/
structure NavToolResult where
  success : Bool
  errorCode : Option String
  suggestion : Option String
  attempts : Option Nat
deriving Repr, DecidableEq

/-- The `browser_navigate` handler: reject up front with
`CONTEXT_UNSTABLE` when the shared attempt counter already shows two or
more failures; otherwise create a page and navigate, resetting the
counter on success and bumping it in the `catch` on failure. -/
def browserNavigateHandler (maxPages : Nat) (navOk : Bool) (st : Guard)
    (cid : Nat) : NavToolResult × Guard :=
  let attempts := (mapGet st.navMap cid).getD 0
  if 2 ≤ attempts then
    ({ success := false, errorCode := some "CONTEXT_UNSTABLE",
       suggestion := some "Use browser_navigate_safe for automatic recovery or browser_force_recreate to start fresh",
       attempts := some attempts }, st)
  else
    let pr := st.bm.createPage maxPages cid
    let st1 : Guard := { st with bm := pr.2 }
    match pr.1 with
    | .error _ =>
      let a := (mapGet st1.navMap cid).getD 0
      ({ success := false, errorCode := some "NAVIGATION_FAILED",
         suggestion := some (if 2 ≤ a + 1 then
             "Consider using browser_navigate_safe for automatic recovery"
           else "Retry or use browser_navigate_safe"),
         attempts := some (a + 1) },
       { st1 with navMap := mapSet st1.navMap cid (a + 1) })
    | .ok _ =>
      if navOk then
        ({ success := true, errorCode := none, suggestion := none,
           attempts := none },
         { st1 with navMap := mapDelete st1.navMap cid })
      else
        let a := (mapGet st1.navMap cid).getD 0
        ({ success := false, errorCode := some "NAVIGATION_FAILED",
           suggestion := some (if 2 ≤ a + 1 then
               "Consider using browser_navigate_safe for automatic recovery"
             else "Retry or use browser_navigate_safe"),
           attempts := some (a + 1) },
         { st1 with navMap := mapSet st1.navMap cid (a + 1) })

/-! ### Collector queries (`getLogs` / `getRequests`)

Option fields model the JS option objects; `some 0` / `some ""` survive
the JS falsy checks (`if (options.limit)`, `if (options.since)`,
`if (options.contains)`) exactly as `0` / `''` would: the corresponding
stage is skipped.  The network sort models
`filteredRequests.sort((a, b) => b.timestamp - a.timestamp)`; the
property proved of it is order+permutation, tie order being irrelevant
to every claim. -/

structure LogEntry where
  type : String
  text : String
  timestamp : Nat
deriving Repr, DecidableEq

structure LogOptions where
  types : Option (List String)
  since : Option Nat
  contains : Option String
  limit : Option Nat
deriving Repr, DecidableEq

/-- Stage 1 of `getLogs`: `options.types && options.types.length > 0`. -/
def logsFilterTypes (o : LogOptions) (l : List LogEntry) : List LogEntry :=
  match o.types with
  | some ts => if 0 < ts.length then l.filter (fun lg => ts.contains lg.type) else l
  | none => l

/-- Stage 2 of `getLogs`: `options.since` (a `0` timestamp is falsy). -/
def logsFilterSince (o : LogOptions) (l : List LogEntry) : List LogEntry :=
  match o.since with
  | some s => if s ≠ 0 then l.filter (fun lg => s ≤ lg.timestamp) else l
  | none => l

/-- Stage 3 of `getLogs`: `options.contains` (an empty string is falsy). -/
def logsFilterContains (o : LogOptions) (l : List LogEntry) : List LogEntry :=
  match o.contains with
  | some c => if c ≠ "" then l.filter (fun lg => containsSub lg.text c) else l
  | none => l

/-- Method `ConsoleCollector.getLogs`: the three filters, then
`filteredLogs.slice(-options.limit)` — the LAST `limit` matches in
insertion order. -/
def getLogs (o : LogOptions) (logs : List LogEntry) : List LogEntry :=
  let l3 := logsFilterContains o (logsFilterSince o (logsFilterTypes o logs))
  match o.limit with
  | some n => if n ≠ 0 then l3.drop (l3.length - n) else l3
  | none => l3

structure Resp where
  status : Nat
deriving Repr, DecidableEq

structure Req where
  url : String
  resourceType : String
  timestamp : Nat
  failed : Bool
  response : Option Resp
deriving Repr, DecidableEq

/-- The synthetic `'failed'` status: transport failure, or an HTTP
status of 400 and above. -/
def reqFailed (r : Req) : Bool :=
  r.failed || (match r.response with
    | some rsp => 400 ≤ rsp.status
    | none => false)

inductive StatusFilter where
  | failed
  | code (n : Nat)
deriving Repr, DecidableEq

structure ReqOptions where
  status : Option StatusFilter
  urlContains : Option String
  resourceType : Option String
  since : Option Nat
  limit : Option Nat
deriving Repr, DecidableEq

/-- Stage 1 of `getRequests`: `options.status` (`0` is falsy). -/
def reqsFilterStatus (o : ReqOptions) (l : List Req) : List Req :=
  match o.status with
  | some .failed => l.filter reqFailed
  | some (.code n) =>
    if n ≠ 0 then
      l.filter (fun r => match r.response with
        | some rsp => rsp.status == n
        | none => false)
    else l
  | none => l

/-- Stage 2 of `getRequests`: `options.urlContains`. -/
def reqsFilterUrl (o : ReqOptions) (l : List Req) : List Req :=
  match o.urlContains with
  | some u => if u ≠ "" then l.filter (fun r => containsSub r.url u) else l
  | none => l

/-- Stage 3 of `getRequests`: `options.resourceType`. -/
def reqsFilterType (o : ReqOptions) (l : List Req) : List Req :=
  match o.resourceType with
  | some t => if t ≠ "" then l.filter (fun r => r.resourceType == t) else l
  | none => l

/-- Stage 4 of `getRequests`: `options.since`. -/
def reqsFilterSince (o : ReqOptions) (l : List Req) : List Req :=
  match o.since with
  | some s => if s ≠ 0 then l.filter (fun r => s ≤ r.timestamp) else l
  | none => l

/-- Newest first: the comparator `(a, b) => b.timestamp - a.timestamp`
keeps `a` before `b` exactly when `b.timestamp ≤ a.timestamp`. -/
def newestFirst : Req → Req → Prop := fun a b => b.timestamp ≤ a.timestamp

instance : DecidableRel newestFirst := fun a b =>
  Nat.decLe b.timestamp a.timestamp

instance : IsTotal Req newestFirst :=
  ⟨fun a b => le_total b.timestamp a.timestamp⟩

instance : IsTrans Req newestFirst :=
  ⟨fun _ _ _ h1 h2 => le_trans h2 h1⟩

/-- Method `NetworkCollector.getRequests`: four filters, sort newest-first,
then `slice(0, options.limit)` — the FIRST `limit` after sorting. -/
def getRequests (o : ReqOptions) (reqs : List Req) : List Req :=
  let r4 := reqsFilterSince o (reqsFilterType o (reqsFilterUrl o
    (reqsFilterStatus o reqs)))
  let r5 := List.insertionSort newestFirst r4
  match o.limit with
  | some n => if n ≠ 0 then r5.take n else r5
  | none => r5

/-- Survival predicate of `getLogs` stage 1. -/
def logTypeOk (o : LogOptions) (lg : LogEntry) : Bool :=
  match o.types with
  | some ts => if 0 < ts.length then ts.contains lg.type else true
  | none => true

/-- Survival predicate of `getLogs` stage 2. -/
def logSinceOk (o : LogOptions) (lg : LogEntry) : Bool :=
  match o.since with
  | some s => if s ≠ 0 then decide (s ≤ lg.timestamp) else true
  | none => true

/-- Survival predicate of `getLogs` stage 3. -/
def logContainsOk (o : LogOptions) (lg : LogEntry) : Bool :=
  match o.contains with
  | some c => if c ≠ "" then containsSub lg.text c else true
  | none => true

/-- The combined match predicate of a console query (what an entry must
satisfy to survive all three filter stages). -/
def logMatch (o : LogOptions) (lg : LogEntry) : Bool :=
  logTypeOk o lg && logSinceOk o lg && logContainsOk o lg

/-- Survival predicate of `getRequests` stage 1. -/
def reqStatusOk (o : ReqOptions) (r : Req) : Bool :=
  match o.status with
  | some .failed => reqFailed r
  | some (.code n) =>
    if n ≠ 0 then
      (match r.response with
        | some rsp => rsp.status == n
        | none => false)
    else true
  | none => true

/-- Survival predicate of `getRequests` stage 2. -/
def reqUrlOk (o : ReqOptions) (r : Req) : Bool :=
  match o.urlContains with
  | some u => if u ≠ "" then containsSub r.url u else true
  | none => true

/-- Survival predicate of `getRequests` stage 3. -/
def reqTypeOk (o : ReqOptions) (r : Req) : Bool :=
  match o.resourceType with
  | some t => if t ≠ "" then r.resourceType == t else true
  | none => true

/-- Survival predicate of `getRequests` stage 4. -/
def reqSinceOk (o : ReqOptions) (r : Req) : Bool :=
  match o.since with
  | some s => if s ≠ 0 then decide (s ≤ r.timestamp) else true
  | none => true

/-- The combined match predicate of a network query. -/
def reqMatch (o : ReqOptions) (r : Req) : Bool :=
  reqStatusOk o r && reqUrlOk o r && reqTypeOk o r && reqSinceOk o r

/-! ## Theorems -/

theorem mapGet_mapDelete_self (m : List (Nat × Nat)) (k : Nat) :
    mapGet (mapDelete m k) k = none := by
  induction m with
  | nil => rfl
  | cons p ps ih =>
    show mapGet (List.filter (fun q => q.1 ≠ k) (p :: ps)) k = none
    rw [List.filter_cons]
    by_cases hp : p.1 = k
    · have hc : (decide (p.1 ≠ k)) = false := by simp [hp]
      rw [hc]
      exact ih
    · have hc : (decide (p.1 ≠ k)) = true := by simp [hp]
      rw [hc]
      show (if p.1 = k then some p.2 else mapGet (mapDelete ps k) k) = none
      rw [if_neg hp]
      exact ih

theorem mapGet_mapDelete_ne (m : List (Nat × Nat)) (k k' : Nat) (h : k' ≠ k) :
    mapGet (mapDelete m k) k' = mapGet m k' := by
  induction m with
  | nil => rfl
  | cons p ps ih =>
    show mapGet (List.filter (fun q => q.1 ≠ k) (p :: ps)) k' = mapGet (p :: ps) k'
    rw [List.filter_cons]
    have hrhs : mapGet (p :: ps) k' =
        if p.1 = k' then some p.2 else mapGet ps k' := rfl
    by_cases hp : p.1 = k
    · have hc : (decide (p.1 ≠ k)) = false := by simp [hp]
      have hp' : ¬ p.1 = k' := by rw [hp]; exact Ne.symm h
      rw [hc, hrhs, if_neg hp']
      exact ih
    · have hc : (decide (p.1 ≠ k)) = true := by simp [hp]
      rw [hc]
      show (if p.1 = k' then some p.2 else mapGet (mapDelete ps k) k') =
        mapGet (p :: ps) k'
      rw [hrhs]
      by_cases hp' : p.1 = k'
      · rw [if_pos hp', if_pos hp']
      · rw [if_neg hp', if_neg hp']
        exact ih

theorem mapGet_mapSet_self (m : List (Nat × Nat)) (k v : Nat) :
    mapGet (mapSet m k v) k = some v := by
  simp [mapGet, mapSet]

theorem mapGet_mapSet_ne (m : List (Nat × Nat)) (k k' v : Nat) (h : k' ≠ k) :
    mapGet (mapSet m k v) k' = mapGet m k' := by
  simp only [mapSet, mapGet, Ne.symm h, if_false]
  exact mapGet_mapDelete_ne m k k' h

theorem ringAdd_eq_drop (maxN : Nat) (l : List α) (e : α) :
    ringAdd maxN l e = (l ++ [e]).drop ((l ++ [e]).length - maxN) := by
  by_cases h : maxN < l.length + 1
  · simp [ringAdd, h]
  · have h0 : l.length + 1 - maxN = 0 := by omega
    simp [ringAdd, h, h0]

theorem ringAdd_length_le (maxN : Nat) (l : List α) (e : α)
    (h : l.length ≤ maxN) : (ringAdd maxN l e).length ≤ maxN := by
  rw [ringAdd_eq_drop]
  simp only [List.length_drop, List.length_append, List.length_cons,
    List.length_nil]
  omega

theorem ringAddAll_eq_drop (maxN : Nat) (es : List α) :
    ∀ l : List α, l.length ≤ maxN →
      ringAddAll maxN l es = (l ++ es).drop ((l ++ es).length - maxN) := by
  induction es with
  | nil =>
    intro l h
    have h0 : l.length - maxN = 0 := by omega
    simp [ringAddAll, h0]
  | cons e es ih =>
    intro l h
    have hstep : ringAddAll maxN l (e :: es) =
        ringAddAll maxN (ringAdd maxN l e) es := rfl
    rw [hstep, ih _ (ringAdd_length_le maxN l e h), ringAdd_eq_drop]
    have hd : (l ++ [e]).length - maxN ≤ (l ++ [e]).length := Nat.sub_le _ _
    rw [← List.drop_append_of_le_length hd, List.drop_drop]
    have hassoc : l ++ [e] ++ es = l ++ e :: es := by simp
    rw [hassoc]
    congr 1
    simp only [List.length_append, List.length_drop, List.length_cons,
      List.length_nil]
    omega

theorem ringAddAll_nil_eq (maxN : Nat) (es : List α) :
    ringAddAll maxN ([] : List α) es = es.drop (es.length - maxN) := by
  simpa using ringAddAll_eq_drop maxN es [] (by simp)

theorem ringAddAll_nil_length_le (maxN : Nat) (es : List α) :
    (ringAddAll maxN ([] : List α) es).length ≤ maxN := by
  rw [ringAddAll_nil_eq]
  simp only [List.length_drop]
  omega

theorem healthPageStep_counts (h : Health) (ps : List HPage) :
    (ps.foldl healthPageStep h).zombiePages = h.zombiePages + zombieCount ps
    ∧ (ps.foldl healthPageStep h).activePages = h.activePages + activeCount ps
    ∧ (ps.foldl healthPageStep h).isHealthy = h.isHealthy := by
  induction ps generalizing h with
  | nil => simp [zombieCount, activeCount]
  | cons p ps ih =>
    have hz : zombieCount (p :: ps) =
        (if p.closed || !p.responsive then 1 else 0) + zombieCount ps := by
      simp [zombieCount, List.countP_cons]
      split <;> omega
    have ha : activeCount (p :: ps) =
        (if !p.closed && p.responsive then 1 else 0) + activeCount ps := by
      simp [activeCount, List.countP_cons]
      split <;> omega
    obtain ⟨ihz, iha, ihh⟩ := ih (healthPageStep h p)
    refine ⟨?_, ?_, ?_⟩
    · rw [List.foldl_cons, ihz, hz]
      by_cases hc : p.closed <;> by_cases hr : p.responsive <;>
        simp [healthPageStep, hc, hr] <;> omega
    · rw [List.foldl_cons, iha, ha]
      by_cases hc : p.closed <;> by_cases hr : p.responsive <;>
        simp [healthPageStep, hc, hr] <;> omega
    · rw [List.foldl_cons, ihh]
      by_cases hc : p.closed <;> by_cases hr : p.responsive <;>
        simp [healthPageStep, hc, hr]

theorem checkPagesHealth_isHealthy (ps : List HPage) :
    (checkPagesHealth ps).isHealthy =
      ((zombieCount ps == 0) && (0 < activeCount ps)) := by
  obtain ⟨hz, ha, hh⟩ := healthPageStep_counts ⟨true, [], ps.length, 0, 0⟩ ps
  unfold checkPagesHealth
  simp only []
  split
  · next hcond =>
    simp only []
    rw [hz, ha] at hcond
    simp only [Nat.zero_add] at hcond
    rcases hcond with hcond | hcond
    · have : ¬ zombieCount ps = 0 := by omega
      simp [this]
    · have : ¬ 0 < activeCount ps := by omega
      simp [hcond, this]
  · next hcond =>
    push_neg at hcond
    rw [hz, ha] at hcond
    simp only [Nat.zero_add] at hcond
    obtain ⟨h1, h2⟩ := hcond
    have hz0 : zombieCount ps = 0 := by omega
    have ha0 : 0 < activeCount ps := Nat.pos_of_ne_zero h2
    rw [hh]
    simp [hz0, ha0]

theorem foldl_decPage_fields (l : List α) (st : BM) :
    (l.foldl (fun (s : BM) _ => s.decPage) st).contexts = st.contexts
    ∧ (l.foldl (fun (s : BM) _ => s.decPage) st).collectors = st.collectors
    ∧ (l.foldl (fun (s : BM) _ => s.decPage) st).openPages = st.openPages
    ∧ (l.foldl (fun (s : BM) _ => s.decPage) st).browserUp = st.browserUp
    ∧ (l.foldl (fun (s : BM) _ => s.decPage) st).nextId = st.nextId := by
  induction l generalizing st with
  | nil => exact ⟨rfl, rfl, rfl, rfl, rfl⟩
  | cons a l ih => simpa [BM.decPage] using ih st.decPage

theorem foldl_decPage_nonneg (l : List α) (st : BM)
    (h : 0 ≤ st.activePages) :
    0 ≤ (l.foldl (fun (s : BM) _ => s.decPage) st).activePages := by
  induction l generalizing st with
  | nil => exact h
  | cons a l ih =>
    exact ih st.decPage (le_max_left 0 _)

theorem foldl_decPage_activePages (l : List α) (st : BM)
    (h : (l.length : Int) ≤ st.activePages) :
    (l.foldl (fun (s : BM) _ => s.decPage) st).activePages =
      st.activePages - l.length := by
  induction l generalizing st with
  | nil => simp
  | cons a l ih =>
    have h1 : (1 : Int) ≤ st.activePages := by
      simp only [List.length_cons] at h
      omega
    have hd : st.decPage.activePages = st.activePages - 1 := by
      simp only [BM.decPage]
      omega
    have h2 : (l.length : Int) ≤ st.decPage.activePages := by
      rw [hd]
      simp only [List.length_cons] at h
      omega
    calc ((a :: l).foldl (fun (s : BM) _ => s.decPage) st).activePages
        = (l.foldl (fun (s : BM) _ => s.decPage) st.decPage).activePages := rfl
      _ = st.decPage.activePages - l.length := ih st.decPage h2
      _ = st.activePages - (a :: l).length := by
          rw [hd]
          simp only [List.length_cons]
          push_cast
          omega

theorem length_filter_add_length_filter_not (p : α → Bool) (l : List α) :
    (l.filter p).length + (l.filter (fun a => !(p a))).length = l.length := by
  induction l with
  | nil => rfl
  | cons a l ih =>
    by_cases hp : p a <;> simp [List.filter_cons, hp] <;> omega

theorem BM.closeContext_contexts (st : BM) (cid : Nat) :
    (st.closeContext cid).contexts = st.contexts.filter (fun c => !(c == cid)) := by
  unfold BM.closeContext
  split
  · next h =>
    simp only []
    rw [(foldl_decPage_fields _ st).1]
  · next h =>
    have : ∀ c ∈ st.contexts, (!(c == cid)) = true := by
      intro c hc
      simp only [Bool.not_eq_true', beq_eq_false_iff_ne]
      intro hcontra
      subst hcontra
      exact h (List.elem_eq_true_of_mem hc)
    rw [List.filter_eq_self.mpr this]

theorem BM.closeContext_keyset (st : BM) (cid : Nat)
    (heq : st.contexts = st.collectors) :
    (st.closeContext cid).contexts = (st.closeContext cid).collectors := by
  unfold BM.closeContext
  split
  · simp only []
    rw [(foldl_decPage_fields _ st).1, (foldl_decPage_fields _ st).2.1, heq]
  · exact heq

theorem BM.closeContext_sub (st : BM) (cid x : Nat)
    (hsub : ∀ y ∈ st.contexts, y ∈ st.collectors)
    (hx : x ∈ (st.closeContext cid).contexts) :
    x ∈ (st.closeContext cid).collectors := by
  by_cases h : st.contexts.contains cid
  · simp only [BM.closeContext, h, if_true] at hx ⊢
    rw [(foldl_decPage_fields _ st).1] at hx
    rw [(foldl_decPage_fields _ st).2.1]
    rw [List.mem_filter] at hx ⊢
    exact ⟨hsub x hx.1, hx.2⟩
  · simp only [BM.closeContext, h, if_false] at hx ⊢
    exact hsub x hx

theorem BM.foldl_closeContext_contexts (l : List Nat) (st : BM) :
    (l.foldl BM.closeContext st).contexts =
      st.contexts.filter (fun c => !(l.contains c)) := by
  induction l generalizing st with
  | nil => simp
  | cons a l ih =>
    rw [List.foldl_cons, ih, BM.closeContext_contexts, List.filter_filter]
    apply List.filter_congr
    intro c _
    rw [List.contains_cons]
    cases hb : (c == a) <;> cases hb2 : (l.contains c) <;> simp [hb, hb2]

theorem BM.cleanup_contexts_nil (st : BM) : st.cleanup.contexts = [] := by
  unfold BM.cleanup
  simp only []
  rw [BM.foldl_closeContext_contexts]
  apply List.filter_eq_nil_iff.mpr
  intro c hc
  simpa using hc

theorem BM.step_nonneg (maxPages : Nat) (st : BM) (e : Ev)
    (h : 0 ≤ st.activePages) : 0 ≤ (BM.step maxPages st e).activePages := by
  cases e with
  | createCtx =>
    simp only [BM.step, BM.createContext, BM.launchBrowser]
    split <;> exact h
  | closeCtx cid =>
    simp only [BM.step, BM.closeContext]
    split
    · exact foldl_decPage_nonneg _ st h
    · exact h
  | createPg cid =>
    show 0 ≤ (st.createPage maxPages cid).2.activePages
    unfold BM.createPage
    split
    · split
      · exact h
      · show 0 ≤ st.activePages + 1
        omega
    · exact h
  | pgClose pid =>
    simp only [BM.step, BM.pageClose]
    split
    · simp only [BM.decPage]
      exact le_max_left 0 _
    · exact h
  | cleanup => simp [BM.step, BM.cleanup]
  | disconnect =>
    simp only [BM.step, BM.disconnect]
    split
    · simp
    · exact h

theorem BM.run_nonneg (maxPages : Nat) (es : List Ev) (st : BM)
    (h : 0 ≤ st.activePages) : 0 ≤ (BM.run maxPages st es).activePages := by
  induction es generalizing st with
  | nil => exact h
  | cons e es ih => exact ih _ (BM.step_nonneg maxPages st e h)

theorem BM.step_keyset_eq (maxPages : Nat) (st : BM) (e : Ev)
    (h : st.contexts = st.collectors) (he : e ≠ Ev.disconnect) :
    (BM.step maxPages st e).contexts = (BM.step maxPages st e).collectors := by
  cases e with
  | createCtx =>
    by_cases hb : st.browserUp
    · simp [BM.step, BM.createContext, BM.launchBrowser, hb, h]
    · simp [BM.step, BM.createContext, BM.launchBrowser, hb, h]
  | closeCtx cid => exact BM.closeContext_keyset st cid h
  | createPg cid =>
    simp only [BM.step, BM.createPage]
    split
    · split
      · exact h
      · exact h
    · exact h
  | pgClose pid =>
    simp only [BM.step, BM.pageClose]
    split <;> exact h
  | cleanup =>
    show (st.cleanup).contexts = (st.cleanup).collectors
    rw [BM.cleanup_contexts_nil]
    rfl
  | disconnect => exact absurd rfl he

theorem BM.step_keyset_sub (maxPages : Nat) (st : BM) (e : Ev)
    (h : ∀ x ∈ st.contexts, x ∈ st.collectors) :
    ∀ x ∈ (BM.step maxPages st e).contexts,
      x ∈ (BM.step maxPages st e).collectors := by
  intro x hx
  cases e with
  | createCtx =>
    simp only [BM.step, BM.createContext, BM.launchBrowser] at hx ⊢
    by_cases hb : st.browserUp <;>
      simp only [hb, if_true, if_false] at hx ⊢ <;>
      rw [List.mem_append] at hx ⊢ <;>
      [exact hx.imp (h x) id; exact hx.imp (h x) id]
  | closeCtx cid => exact BM.closeContext_sub st cid x h hx
  | createPg cid =>
    by_cases hc : cid ∈ st.contexts
    · by_cases hcap : (maxPages : Int) ≤ st.activePages
      · simp [BM.step, BM.createPage, hc, hcap] at hx ⊢
        exact h x hx
      · simp [BM.step, BM.createPage, hc, hcap] at hx ⊢
        exact h x hx
    · simp [BM.step, BM.createPage, hc] at hx ⊢
      exact h x hx
  | pgClose pid =>
    simp only [BM.step, BM.pageClose] at hx ⊢
    split at hx <;> split <;> exact h x hx
  | cleanup =>
    rw [show (BM.step maxPages st Ev.cleanup) = st.cleanup from rfl,
      BM.cleanup_contexts_nil] at hx
    exact absurd hx (List.not_mem_nil x)
  | disconnect =>
    simp only [BM.step, BM.disconnect] at hx ⊢
    split at hx
    · simp only [] at hx
      exact absurd hx (List.not_mem_nil x)
    · split
      · simp only []
        exact h x hx
      · exact h x hx

theorem BM.run_keyset_sub (maxPages : Nat) (es : List Ev) (st : BM)
    (hsub : ∀ x ∈ st.contexts, x ∈ st.collectors) :
    ∀ x ∈ (BM.run maxPages st es).contexts,
      x ∈ (BM.run maxPages st es).collectors := by
  induction es generalizing st with
  | nil => exact hsub
  | cons e es ih => exact ih _ (BM.step_keyset_sub maxPages st e hsub)

theorem BM.run_keyset_eq (maxPages : Nat) (es : List Ev) (st : BM)
    (heq : st.contexts = st.collectors)
    (hall : ∀ e ∈ es, e ≠ Ev.disconnect) :
    (BM.run maxPages st es).contexts = (BM.run maxPages st es).collectors := by
  induction es generalizing st with
  | nil => exact heq
  | cons e es ih =>
    have he : e ≠ Ev.disconnect := hall e (List.mem_cons_self e es)
    exact ih _ (BM.step_keyset_eq maxPages st e heq he)
      (fun x hx => hall x (List.mem_cons_of_mem e hx))

theorem pairwise_filter_snd_le_one (l : List (Nat × Nat)) (pid : Nat)
    (h : l.Pairwise (fun a b => a.2 ≠ b.2)) :
    (l.filter (fun p => p.2 == pid)).length ≤ 1 := by
  induction l with
  | nil => simp
  | cons a l ih =>
    rw [List.pairwise_cons] at h
    obtain ⟨ha, hl⟩ := h
    rw [List.filter_cons]
    by_cases hm : a.2 = pid
    · have hb : (a.2 == pid) = true := by simp [hm]
      rw [hb]
      simp only [if_true]
      have hnil : l.filter (fun p => p.2 == pid) = [] := by
        apply List.filter_eq_nil_iff.mpr
        intro b hb2
        have : a.2 ≠ b.2 := ha b hb2
        simp only [beq_eq_false_iff_ne, ne_eq, Bool.not_eq_true]
        rw [hm] at this
        simp [Ne.symm this]
      simp [hnil]
    · have hb : (a.2 == pid) = false := by simp [hm]
      rw [hb]
      simpa using ih hl

theorem any_snd_filter_pos (l : List (Nat × Nat)) (pid : Nat)
    (h : l.any (fun p => p.2 == pid) = true) :
    0 < (l.filter (fun p => p.2 == pid)).length := by
  rw [List.any_eq_true] at h
  obtain ⟨x, hx, hpx⟩ := h
  have : x ∈ l.filter (fun p => p.2 == pid) := List.mem_filter.mpr ⟨hx, hpx⟩
  exact List.length_pos.mpr (fun hnil => by simp [hnil] at this)

theorem InvC6_step (maxPages : Nat) (st : BM) (e : Ev)
    (hl : Ev.lifecycle e = true) (h : InvC6 st) :
    InvC6 (BM.step maxPages st e) := by
  obtain ⟨h1, h2, h3⟩ := h
  cases e with
  | createCtx =>
    by_cases hb : st.browserUp
    · refine ⟨?_, ?_, ?_⟩ <;>
        simp only [BM.step, BM.createContext, BM.launchBrowser, hb, if_true]
      · exact h1
      · intro p hp
        exact Nat.lt_succ_of_lt (h2 p hp)
      · exact h3
    · refine ⟨?_, ?_, ?_⟩ <;>
        simp only [BM.step, BM.createContext, BM.launchBrowser, hb, if_false]
      · exact h1
      · intro p hp
        exact Nat.lt_succ_of_lt (h2 p hp)
      · exact h3
  | closeCtx cid =>
    by_cases hc : st.contexts.contains cid
    · have hfields := foldl_decPage_fields
        (st.openPages.filter (fun p => p.1 == cid)) st
      have hmlen : ((st.openPages.filter (fun p => p.1 == cid)).length : Int) ≤
          st.activePages := by
        rw [h1]
        exact_mod_cast List.length_filter_le _ _
      have hval := foldl_decPage_activePages
        (st.openPages.filter (fun p => p.1 == cid)) st hmlen
      have hsplit := length_filter_add_length_filter_not
        (fun p => p.1 == cid) st.openPages
      refine ⟨?_, ?_, ?_⟩ <;>
        simp only [BM.step, BM.closeContext, hc, if_true]
      · rw [hval, hfields.2.2.1, h1]
        omega
      · intro p hp
        rw [hfields.2.2.1] at hp
        rw [hfields.2.2.2.2]
        exact h2 p (List.mem_of_mem_filter hp)
      · rw [hfields.2.2.1]
        exact h3.sublist (List.filter_sublist _)
    · simpa only [BM.step, BM.closeContext, hc, if_false] using ⟨h1, h2, h3⟩
  | createPg cid =>
    by_cases hc : st.contexts.contains cid
    · by_cases hcap : (maxPages : Int) ≤ st.activePages
      · simpa only [BM.step, BM.createPage, hc, hcap, if_true] using ⟨h1, h2, h3⟩
      · refine ⟨?_, ?_, ?_⟩ <;>
          simp only [BM.step, BM.createPage, hc, hcap, if_true, if_false]
        · rw [h1]
          simp
        · intro p hp
          rcases List.mem_append.mp hp with hp | hp
          · exact Nat.lt_succ_of_lt (h2 p hp)
          · rw [List.mem_singleton.mp hp]
            exact Nat.lt_succ_self _
        · rw [List.pairwise_append]
          refine ⟨h3, List.pairwise_singleton _ _, ?_⟩
          intro a ha b hb
          rw [List.mem_singleton.mp hb]
          exact Nat.ne_of_lt (h2 a ha)
    · simpa only [BM.step, BM.createPage, hc, if_false] using ⟨h1, h2, h3⟩
  | pgClose pid =>
    by_cases ha : st.openPages.any (fun p => p.2 == pid)
    · have hone : (st.openPages.filter (fun p => p.2 == pid)).length = 1 :=
        Nat.le_antisymm (pairwise_filter_snd_le_one _ pid h3)
          (any_snd_filter_pos _ pid ha)
      have hsplit := length_filter_add_length_filter_not
        (fun p => p.2 == pid) st.openPages
      refine ⟨?_, ?_, ?_⟩ <;>
        simp only [BM.step, BM.pageClose, ha, if_true, BM.decPage]
      · rw [h1]
        have hpos : 0 < st.openPages.length := by omega
        omega
      · intro p hp
        exact h2 p (List.mem_of_mem_filter hp)
      · exact h3.sublist (List.filter_sublist _)
    · simpa only [BM.step, BM.pageClose, ha, if_false] using ⟨h1, h2, h3⟩
  | cleanup => simp [Ev.lifecycle] at hl
  | disconnect => simp [Ev.lifecycle] at hl

theorem InvC6_run (maxPages : Nat) (es : List Ev) (st : BM)
    (hall : ∀ e ∈ es, Ev.lifecycle e = true) (h : InvC6 st) :
    InvC6 (BM.run maxPages st es) := by
  induction es generalizing st with
  | nil => exact h
  | cons e es ih =>
    exact ih _ (fun x hx => hall x (List.mem_cons_of_mem e hx))
      (InvC6_step maxPages st e (hall e (List.mem_cons_self e es)) h)

theorem InvC6_init : InvC6 BM.init := by
  refine ⟨rfl, ?_, List.Pairwise.nil⟩
  intro p hp
  simp [BM.init] at hp

theorem logsFilterTypes_eq (o : LogOptions) (l : List LogEntry) :
    logsFilterTypes o l = l.filter (logTypeOk o) := by
  rcases o with ⟨ts?, s?, c?, n?⟩
  rcases ts? with _ | ts
  · rw [show logTypeOk ⟨none, s?, c?, n?⟩ = fun _ => true from rfl]
    simp [logsFilterTypes, List.filter_true]
  · rw [show logTypeOk ⟨some ts, s?, c?, n?⟩ =
      fun lg => if 0 < ts.length then ts.contains lg.type else true from rfl]
    by_cases h : 0 < ts.length
    · simp [logsFilterTypes, h]
    · simp [logsFilterTypes, h, List.filter_true]

theorem logsFilterSince_eq (o : LogOptions) (l : List LogEntry) :
    logsFilterSince o l = l.filter (logSinceOk o) := by
  rcases o with ⟨ts?, s?, c?, n?⟩
  rcases s? with _ | s
  · rw [show logSinceOk ⟨ts?, none, c?, n?⟩ = fun _ => true from rfl]
    simp [logsFilterSince, List.filter_true]
  · rw [show logSinceOk ⟨ts?, some s, c?, n?⟩ =
      fun lg => if s ≠ 0 then decide (s ≤ lg.timestamp) else true from rfl]
    by_cases h : s = 0
    · simp [logsFilterSince, h, List.filter_true]
    · simp [logsFilterSince, h]

theorem logsFilterContains_eq (o : LogOptions) (l : List LogEntry) :
    logsFilterContains o l = l.filter (logContainsOk o) := by
  rcases o with ⟨ts?, s?, c?, n?⟩
  rcases c? with _ | c
  · rw [show logContainsOk ⟨ts?, s?, none, n?⟩ = fun _ => true from rfl]
    simp [logsFilterContains, List.filter_true]
  · rw [show logContainsOk ⟨ts?, s?, some c, n?⟩ =
      fun lg => if c ≠ "" then containsSub lg.text c else true from rfl]
    by_cases h : c = ""
    · simp [logsFilterContains, h, List.filter_true]
    · simp [logsFilterContains, h]

theorem logsStages_eq_filter (o : LogOptions) (logs : List LogEntry) :
    logsFilterContains o (logsFilterSince o (logsFilterTypes o logs)) =
      logs.filter (logMatch o) := by
  rw [logsFilterTypes_eq, logsFilterSince_eq, logsFilterContains_eq,
    List.filter_filter, List.filter_filter]
  apply List.filter_congr
  intro x _
  simp [logMatch, Bool.and_assoc, Bool.and_comm, Bool.and_left_comm]

theorem reqsFilterStatus_eq (o : ReqOptions) (l : List Req) :
    reqsFilterStatus o l = l.filter (reqStatusOk o) := by
  rcases o with ⟨st?, u?, t?, s?, n?⟩
  rcases st? with _ | st
  · rw [show reqStatusOk ⟨none, u?, t?, s?, n?⟩ = fun _ => true from rfl]
    simp [reqsFilterStatus, List.filter_true]
  · rcases st with _ | n
    · rfl
    · rw [show reqStatusOk ⟨some (.code n), u?, t?, s?, n?⟩ =
        (fun r => if n ≠ 0 then
          (match r.response with
            | some rsp => rsp.status == n
            | none => false)
          else true) from rfl]
      by_cases h : n = 0
      · simp [reqsFilterStatus, h, List.filter_true]
      · simp [reqsFilterStatus, h]

theorem reqsFilterUrl_eq (o : ReqOptions) (l : List Req) :
    reqsFilterUrl o l = l.filter (reqUrlOk o) := by
  rcases o with ⟨st?, u?, t?, s?, n?⟩
  rcases u? with _ | u
  · rw [show reqUrlOk ⟨st?, none, t?, s?, n?⟩ = fun _ => true from rfl]
    simp [reqsFilterUrl, List.filter_true]
  · rw [show reqUrlOk ⟨st?, some u, t?, s?, n?⟩ =
      fun r => if u ≠ "" then containsSub r.url u else true from rfl]
    by_cases h : u = ""
    · simp [reqsFilterUrl, h, List.filter_true]
    · simp [reqsFilterUrl, h]

theorem reqsFilterType_eq (o : ReqOptions) (l : List Req) :
    reqsFilterType o l = l.filter (reqTypeOk o) := by
  rcases o with ⟨st?, u?, t?, s?, n?⟩
  rcases t? with _ | t
  · rw [show reqTypeOk ⟨st?, u?, none, s?, n?⟩ = fun _ => true from rfl]
    simp [reqsFilterType, List.filter_true]
  · rw [show reqTypeOk ⟨st?, u?, some t, s?, n?⟩ =
      fun r => if t ≠ "" then r.resourceType == t else true from rfl]
    by_cases h : t = ""
    · simp [reqsFilterType, h, List.filter_true]
    · simp [reqsFilterType, h]

theorem reqsFilterSince_eq (o : ReqOptions) (l : List Req) :
    reqsFilterSince o l = l.filter (reqSinceOk o) := by
  rcases o with ⟨st?, u?, t?, s?, n?⟩
  rcases s? with _ | s
  · rw [show reqSinceOk ⟨st?, u?, t?, none, n?⟩ = fun _ => true from rfl]
    simp [reqsFilterSince, List.filter_true]
  · rw [show reqSinceOk ⟨st?, u?, t?, some s, n?⟩ =
      fun r => if s ≠ 0 then decide (s ≤ r.timestamp) else true from rfl]
    by_cases h : s = 0
    · simp [reqsFilterSince, h, List.filter_true]
    · simp [reqsFilterSince, h]

theorem reqsStages_eq_filter (o : ReqOptions) (reqs : List Req) :
    reqsFilterSince o (reqsFilterType o (reqsFilterUrl o
      (reqsFilterStatus o reqs))) = reqs.filter (reqMatch o) := by
  rw [reqsFilterStatus_eq, reqsFilterUrl_eq, reqsFilterType_eq,
    reqsFilterSince_eq, List.filter_filter, List.filter_filter,
    List.filter_filter]
  apply List.filter_congr
  intro x _
  simp [reqMatch, Bool.and_assoc, Bool.and_comm, Bool.and_left_comm]

/-! ## Claim theorems -/

/-- C2: for every resource id registered in the pool, `checkHealth`
returns a record whose overall healthy flag equals
(unresponsive count == 0 AND active count > 0); in particular a resource
with zero children is reported unhealthy. -/
theorem c2_checkHealth_healthy_flag (pool : List (Nat × List HPage))
    (cid : Nat) (ps : List HPage) (h : hpoolGet pool cid = some ps) :
    (checkHealthOf pool cid).isHealthy =
      ((zombieCount ps == 0) && decide (0 < activeCount ps))
    ∧ (ps = [] → (checkHealthOf pool cid).isHealthy = false) := by
  have hres : checkHealthOf pool cid = checkPagesHealth ps := by
    simp [checkHealthOf, checkContextHealth, h]
  rw [hres, checkPagesHealth_isHealthy]
  refine ⟨rfl, ?_⟩
  intro hnil
  subst hnil
  simp [activeCount]

/-- C2 witness: a context with one open responsive page is healthy, and
the formula agrees. -/
theorem c2_checkHealth_healthy_flag_witness :
    (checkHealthOf [(0, [⟨false, true⟩])] 0).isHealthy =
      ((zombieCount [⟨false, true⟩] == 0) && decide (0 < activeCount [⟨false, true⟩]))
    ∧ ([(⟨false, true⟩ : HPage)] = [] →
        (checkHealthOf [(0, [⟨false, true⟩])] 0).isHealthy = false) :=
  c2_checkHealth_healthy_flag [(0, [⟨false, true⟩])] 0 [⟨false, true⟩] (by decide)

/-- C3: when the resource cannot be reached (unknown id, so the lookup
fails), `checkHealth` returns a synthetic record with
`healthy = false` and a non-empty issue list instead of propagating the
error (the model is a total function: there is no throwing path). -/
theorem c3_checkHealth_unreachable_synthetic (pool : List (Nat × List HPage))
    (cid : Nat) (h : hpoolGet pool cid = none) :
    (checkHealthOf pool cid).isHealthy = false
    ∧ (checkHealthOf pool cid).issues ≠ [] := by
  simp [checkHealthOf, checkContextHealth, h]

/-- C3 witness: an id that was never registered gets the synthetic
unhealthy record. -/
theorem c3_checkHealth_unreachable_synthetic_witness :
    (checkHealthOf [] 5).isHealthy = false
    ∧ (checkHealthOf [] 5).issues ≠ [] :=
  c3_checkHealth_unreachable_synthetic [] 5 (by decide)

/-- C4 counterexample: on a healthy resource `autoHeal` reports
`healed = false`, but the reason string is `"Context is healthy"`, not
the `"already healthy"` the claim states. -/
theorem c4_counterexample :
    (autoHealContext [(0, [⟨false, true⟩])] 0).1.healed = false
    ∧ (autoHealContext [(0, [⟨false, true⟩])] 0).1.reason ≠ "already healthy"
    ∧ (autoHealContext [(0, [⟨false, true⟩])] 0).1.reason =
        "Context is healthy" := by
  refine ⟨rfl, ?_, rfl⟩
  decide

/-- C4 amended: on a resource whose current `checkHealth` verdict is
healthy, `autoHeal` short-circuits with `healed = false` and reason
`"Context is healthy"`, closing no child (the pool is returned
unchanged). -/
theorem c4_autoHeal_healthy_short_circuit (pool : List (Nat × List HPage))
    (cid : Nat) (h : (checkHealthOf pool cid).isHealthy = true) :
    autoHealContext pool cid =
      ({ healed := false, reason := "Context is healthy" }, pool) := by
  simp [autoHealContext, h]

/-- C4 witness: the short-circuit on a concrete healthy resource. -/
theorem c4_autoHeal_healthy_short_circuit_witness :
    autoHealContext [(1, [⟨false, true⟩, ⟨false, true⟩])] 1 =
      ({ healed := false, reason := "Context is healthy" },
       [(1, [⟨false, true⟩, ⟨false, true⟩])]) :=
  c4_autoHeal_healthy_short_circuit [(1, [⟨false, true⟩, ⟨false, true⟩])] 1
    (by decide)

/-- C7: each ring buffer never exceeds its configured maximum (1000
console lines, 500 network exchanges, 100 performance samples) and after
any append sequence holds exactly the most recently appended entries in
insertion order, the oldest evicted first; in particular 1100 appends to
the 1000-cap buffer leave the 1000 most recent. -/
theorem c7_ring_buffer_eviction (es : List α) :
    (ringAddAll consoleMaxLogs [] es).length ≤ consoleMaxLogs
    ∧ ringAddAll consoleMaxLogs [] es = es.drop (es.length - consoleMaxLogs)
    ∧ (ringAddAll networkMaxRequests [] es).length ≤ networkMaxRequests
    ∧ ringAddAll networkMaxRequests [] es =
        es.drop (es.length - networkMaxRequests)
    ∧ (ringAddAll performanceMaxEntries [] es).length ≤ performanceMaxEntries
    ∧ ringAddAll performanceMaxEntries [] es =
        es.drop (es.length - performanceMaxEntries)
    ∧ (es.length = 1100 → ringAddAll consoleMaxLogs [] es = es.drop 100) :=
  ⟨ringAddAll_nil_length_le _ es, ringAddAll_nil_eq _ es,
   ringAddAll_nil_length_le _ es, ringAddAll_nil_eq _ es,
   ringAddAll_nil_length_le _ es, ringAddAll_nil_eq _ es,
   fun h => by rw [ringAddAll_nil_eq, h]; norm_num [consoleMaxLogs]⟩

/-- C7 witness: 1100 appended console entries leave exactly the last
1000. -/
theorem c7_ring_buffer_eviction_witness :
    ringAddAll consoleMaxLogs [] (List.replicate 1100 ()) =
      (List.replicate 1100 ()).drop 100 :=
  (c7_ring_buffer_eviction (List.replicate 1100 ())).2.2.2.2.2.2
    (by rw [List.length_replicate])

/-- C10: in every reachable state of the pool — after any event
sequence, including cleanups, disconnects and stale page-close events —
the live-child counter satisfies `0 ≤ counter`, because the close
handler clamps its decrement at zero. -/
theorem c10_counter_never_negative (maxPages : Nat) (es : List Ev) :
    0 ≤ (BM.run maxPages BM.init es).activePages :=
  BM.run_nonneg maxPages es BM.init (le_refl 0)

/-- C5 counterexample: create a resource, then lose the root connection.
The disconnect handler clears the context map (and the counter) but not
the telemetry-set map, so id 0 still has a telemetry set while it has no
context entry — the two key sets differ at this reachable state. -/
theorem c5_counterexample :
    0 ∈ (BM.run 3 BM.init [Ev.createCtx, Ev.disconnect]).collectors
    ∧ 0 ∉ (BM.run 3 BM.init [Ev.createCtx, Ev.disconnect]).contexts := by
  decide

/-- C5 amended: after any sequence of createResource / closeResource /
cleanupAll events the context-map and telemetry-set key sets are equal
(even as lists); a disconnect clears only the context map and counter,
leaving telemetry keys behind, so over arbitrary event sequences only
the inclusion context-keys ⊆ telemetry-keys holds. -/
theorem c5_keyset_invariant (maxPages : Nat) (es : List Ev) :
    ((∀ e ∈ es, e ≠ Ev.disconnect) →
      (BM.run maxPages BM.init es).contexts =
        (BM.run maxPages BM.init es).collectors)
    ∧ (∀ x ∈ (BM.run maxPages BM.init es).contexts,
        x ∈ (BM.run maxPages BM.init es).collectors) := by
  constructor
  · intro h
    exact BM.run_keyset_eq maxPages es BM.init rfl h
  · exact BM.run_keyset_sub maxPages es BM.init
      (fun x hx => by simp [BM.init] at hx)

/-- C5 witness: on a concrete disconnect-free trace the key sets stay
equal, and on a trace with a disconnect the inclusion still holds for
the id recreated afterwards. -/
theorem c5_keyset_invariant_witness :
    (BM.run 3 BM.init [Ev.createCtx, Ev.createCtx, Ev.closeCtx 0]).contexts =
      (BM.run 3 BM.init [Ev.createCtx, Ev.createCtx, Ev.closeCtx 0]).collectors
    ∧ (2 ∈ (BM.run 3 BM.init
          [Ev.createCtx, Ev.disconnect, Ev.createCtx]).contexts →
        2 ∈ (BM.run 3 BM.init
          [Ev.createCtx, Ev.disconnect, Ev.createCtx]).collectors) :=
  ⟨(c5_keyset_invariant 3 [Ev.createCtx, Ev.createCtx, Ev.closeCtx 0]).1
      (by decide),
   fun h => (c5_keyset_invariant 3
      [Ev.createCtx, Ev.disconnect, Ev.createCtx]).2 2 h⟩

/-- C8: with a result-count limit N, a console query returns the last N
matching entries in original insertion order (a suffix of the matches),
while a network query sorts the matches newest-first by timestamp and
returns the first N — for all buffer contents and filters. -/
theorem c8_query_limit_asymmetry (logs : List LogEntry) (reqs : List Req)
    (lo : LogOptions) (ro : ReqOptions) (n : Nat) (hn : n ≠ 0)
    (hlo : lo.limit = some n) (hro : ro.limit = some n) :
    getLogs lo logs =
      (logs.filter (logMatch lo)).drop ((logs.filter (logMatch lo)).length - n)
    ∧ (getLogs lo logs).IsSuffix (logs.filter (logMatch lo))
    ∧ getRequests ro reqs =
        (List.insertionSort newestFirst (reqs.filter (reqMatch ro))).take n
    ∧ (List.insertionSort newestFirst (reqs.filter (reqMatch ro))).Sorted
        newestFirst
    ∧ (List.insertionSort newestFirst (reqs.filter (reqMatch ro))).Perm
        (reqs.filter (reqMatch ro))
    ∧ (getRequests ro reqs).Sorted newestFirst := by
  have hlogs : getLogs lo logs =
      (logs.filter (logMatch lo)).drop
        ((logs.filter (logMatch lo)).length - n) := by
    unfold getLogs
    rw [logsStages_eq_filter, hlo]
    simp [hn]
  have hreqs : getRequests ro reqs =
      (List.insertionSort newestFirst (reqs.filter (reqMatch ro))).take n := by
    unfold getRequests
    rw [reqsStages_eq_filter, hro]
    simp [hn]
  refine ⟨hlogs, ?_, hreqs, ?_, ?_, ?_⟩
  · rw [hlogs]
    exact List.drop_suffix _ _
  · exact List.sorted_insertionSort newestFirst _
  · exact List.perm_insertionSort newestFirst _
  · rw [hreqs]
    exact (List.sorted_insertionSort newestFirst _).sublist
      (List.take_sublist _ _)

/-- C8 witness: a concrete three-entry console buffer and three-request
network buffer with limit 2. -/
theorem c8_query_limit_asymmetry_witness :
    getLogs ⟨none, none, none, some 2⟩
        [⟨"log", "a", 1⟩, ⟨"log", "b", 2⟩, ⟨"log", "c", 3⟩] =
      (([⟨"log", "a", 1⟩, ⟨"log", "b", 2⟩, ⟨"log", "c", 3⟩] :
          List LogEntry).filter
        (logMatch ⟨none, none, none, some 2⟩)).drop
        ((([⟨"log", "a", 1⟩, ⟨"log", "b", 2⟩, ⟨"log", "c", 3⟩] :
          List LogEntry).filter
          (logMatch ⟨none, none, none, some 2⟩)).length - 2)
    ∧ (getLogs ⟨none, none, none, some 2⟩
        [⟨"log", "a", 1⟩, ⟨"log", "b", 2⟩, ⟨"log", "c", 3⟩]).IsSuffix
        (([⟨"log", "a", 1⟩, ⟨"log", "b", 2⟩, ⟨"log", "c", 3⟩] :
          List LogEntry).filter (logMatch ⟨none, none, none, some 2⟩))
    ∧ getRequests ⟨none, none, none, none, some 2⟩
        [⟨"u1", "xhr", 1, false, none⟩, ⟨"u2", "xhr", 3, false, none⟩,
         ⟨"u3", "xhr", 2, false, none⟩] =
      (List.insertionSort newestFirst
        (([⟨"u1", "xhr", 1, false, none⟩, ⟨"u2", "xhr", 3, false, none⟩,
           ⟨"u3", "xhr", 2, false, none⟩] : List Req).filter
          (reqMatch ⟨none, none, none, none, some 2⟩))).take 2
    ∧ (List.insertionSort newestFirst
        (([⟨"u1", "xhr", 1, false, none⟩, ⟨"u2", "xhr", 3, false, none⟩,
           ⟨"u3", "xhr", 2, false, none⟩] : List Req).filter
          (reqMatch ⟨none, none, none, none, some 2⟩))).Sorted newestFirst
    ∧ (List.insertionSort newestFirst
        (([⟨"u1", "xhr", 1, false, none⟩, ⟨"u2", "xhr", 3, false, none⟩,
           ⟨"u3", "xhr", 2, false, none⟩] : List Req).filter
          (reqMatch ⟨none, none, none, none, some 2⟩))).Perm
        (([⟨"u1", "xhr", 1, false, none⟩, ⟨"u2", "xhr", 3, false, none⟩,
           ⟨"u3", "xhr", 2, false, none⟩] : List Req).filter
          (reqMatch ⟨none, none, none, none, some 2⟩))
    ∧ (getRequests ⟨none, none, none, none, some 2⟩
        [⟨"u1", "xhr", 1, false, none⟩, ⟨"u2", "xhr", 3, false, none⟩,
         ⟨"u3", "xhr", 2, false, none⟩]).Sorted newestFirst :=
  c8_query_limit_asymmetry
    [⟨"log", "a", 1⟩, ⟨"log", "b", 2⟩, ⟨"log", "c", 3⟩]
    [⟨"u1", "xhr", 1, false, none⟩, ⟨"u2", "xhr", 3, false, none⟩,
     ⟨"u3", "xhr", 2, false, none⟩]
    ⟨none, none, none, some 2⟩ ⟨none, none, none, none, some 2⟩ 2
    (by decide) rfl rfl

/-- C9: a plain (unguarded) navigate call on a resource whose shared
failure counter already records two or more failed attempts is rejected
up front with error code `CONTEXT_UNSTABLE` and a suggestion naming the
guarded path, before any navigation: no page is created and the whole
state (pool and counter) is unchanged. -/
theorem c9_plain_navigate_unstable_rejected (maxPages : Nat) (navOk : Bool)
    (st : Guard) (cid : Nat)
    (h : 2 ≤ (mapGet st.navMap cid).getD 0) :
    (browserNavigateHandler maxPages navOk st cid).1.success = false
    ∧ (browserNavigateHandler maxPages navOk st cid).1.errorCode =
        some "CONTEXT_UNSTABLE"
    ∧ (∃ s, (browserNavigateHandler maxPages navOk st cid).1.suggestion = some s
        ∧ containsSub s "browser_navigate_safe" = true)
    ∧ (browserNavigateHandler maxPages navOk st cid).2 = st := by
  have hh : browserNavigateHandler maxPages navOk st cid =
      ({ success := false, errorCode := some "CONTEXT_UNSTABLE",
         suggestion := some "Use browser_navigate_safe for automatic recovery or browser_force_recreate to start fresh",
         attempts := some ((mapGet st.navMap cid).getD 0) }, st) := by
    unfold browserNavigateHandler
    simp [h]
  rw [hh]
  refine ⟨rfl, rfl, ⟨_, rfl, ?_⟩, rfl⟩
  decide

/-- C9 witness: a concrete state with two recorded failures for id 0. -/
theorem c9_plain_navigate_unstable_rejected_witness :
    (browserNavigateHandler 3 true ⟨BM.init, [(0, 2)]⟩ 0).1.success = false
    ∧ (browserNavigateHandler 3 true ⟨BM.init, [(0, 2)]⟩ 0).1.errorCode =
        some "CONTEXT_UNSTABLE"
    ∧ (∃ s, (browserNavigateHandler 3 true ⟨BM.init, [(0, 2)]⟩ 0).1.suggestion =
          some s
        ∧ containsSub s "browser_navigate_safe" = true)
    ∧ (browserNavigateHandler 3 true ⟨BM.init, [(0, 2)]⟩ 0).2 =
        ⟨BM.init, [(0, 2)]⟩ :=
  c9_plain_navigate_unstable_rejected 3 true ⟨BM.init, [(0, 2)]⟩ 0 (by decide)

/-- C6: after any sequence of create/close lifecycle events the
live-child counter equals the number of currently open children; a
create at the cap fails with the capacity error leaving counter and pool
unchanged; below the cap it increments the counter by one and opens one
child; and a child's close event decrements the counter exactly once —
a second delivery for the same child is a no-op. -/
theorem c6_live_child_accounting (maxPages : Nat) (es : List Ev)
    (hall : ∀ e ∈ es, Ev.lifecycle e = true) :
    ((BM.run maxPages BM.init es).activePages =
        ((BM.run maxPages BM.init es).openPages.length : Int))
    ∧ (∀ cid, cid ∈ (BM.run maxPages BM.init es).contexts →
        (BM.run maxPages BM.init es).activePages = (maxPages : Int) →
        (BM.run maxPages BM.init es).createPage maxPages cid =
          (Except.error "CapacityExceeded", BM.run maxPages BM.init es))
    ∧ (∀ cid, cid ∈ (BM.run maxPages BM.init es).contexts →
        (BM.run maxPages BM.init es).activePages < (maxPages : Int) →
        ((BM.run maxPages BM.init es).createPage maxPages cid).2.activePages =
          (BM.run maxPages BM.init es).activePages + 1
        ∧ ∃ pid,
            ((BM.run maxPages BM.init es).createPage maxPages cid).2.openPages =
              (BM.run maxPages BM.init es).openPages ++ [(cid, pid)])
    ∧ (∀ cid pid, (cid, pid) ∈ (BM.run maxPages BM.init es).openPages →
        ((BM.run maxPages BM.init es).pageClose pid).activePages =
          (BM.run maxPages BM.init es).activePages - 1
        ∧ ((BM.run maxPages BM.init es).pageClose pid).pageClose pid =
            (BM.run maxPages BM.init es).pageClose pid) := by
  obtain ⟨h1, h2, h3⟩ := InvC6_run maxPages es BM.init hall InvC6_init
  refine ⟨h1, ?_, ?_, ?_⟩
  · intro cid hm heq
    simp [BM.createPage, hm, heq]
  · intro cid hm hlt
    refine ⟨?_, ⟨(BM.run maxPages BM.init es).nextId, ?_⟩⟩ <;>
      simp [BM.createPage, hm, not_le.mpr hlt]
  · intro cid pid hm
    have hany : (BM.run maxPages BM.init es).openPages.any
        (fun p => p.2 == pid) = true :=
      List.any_eq_true.mpr ⟨(cid, pid), hm, by simp⟩
    have hone : ((BM.run maxPages BM.init es).openPages.filter
        (fun p => p.2 == pid)).length = 1 :=
      Nat.le_antisymm (pairwise_filter_snd_le_one _ pid h3)
        (any_snd_filter_pos _ pid hany)
    have hpos : 0 < (BM.run maxPages BM.init es).openPages.length :=
      List.length_pos.mpr (List.ne_nil_of_mem hm)
    have hnone : ((BM.run maxPages BM.init es).openPages.filter
        (fun p => !(p.2 == pid))).any (fun p => p.2 == pid) = false := by
      rw [Bool.eq_false_iff]
      intro hcontra
      rw [List.any_eq_true] at hcontra
      obtain ⟨x, hx, hpx⟩ := hcontra
      rw [List.mem_filter] at hx
      rw [hpx] at hx
      exact absurd hx.2 (by decide)
    constructor
    · simp only [BM.pageClose, hany, if_true, BM.decPage]
      rw [h1]
      omega
    · have hstep : (BM.run maxPages BM.init es).pageClose pid =
          { (BM.run maxPages BM.init es).decPage with
            openPages := (BM.run maxPages BM.init es).openPages.filter
              (fun p => !(p.2 == pid)) } := by
        simp [BM.pageClose, hany]
      rw [hstep]
      simp [BM.pageClose, hnone]

/-- C6 witness: with cap 3, three pages open fail the fourth create, and
closing a page decrements the counter by one. -/
theorem c6_live_child_accounting_witness :
    ((BM.run 3 BM.init [Ev.createCtx, Ev.createPg 0, Ev.createPg 0,
        Ev.createPg 0]).activePages =
      ((BM.run 3 BM.init [Ev.createCtx, Ev.createPg 0, Ev.createPg 0,
        Ev.createPg 0]).openPages.length : Int))
    ∧ (BM.run 3 BM.init [Ev.createCtx, Ev.createPg 0, Ev.createPg 0,
        Ev.createPg 0]).createPage 3 0 =
      (Except.error "CapacityExceeded",
       BM.run 3 BM.init [Ev.createCtx, Ev.createPg 0, Ev.createPg 0,
        Ev.createPg 0])
    ∧ ((BM.run 3 BM.init [Ev.createCtx, Ev.createPg 0, Ev.createPg 0,
        Ev.createPg 0]).pageClose 1).activePages =
      (BM.run 3 BM.init [Ev.createCtx, Ev.createPg 0, Ev.createPg 0,
        Ev.createPg 0]).activePages - 1 := by
  have h := c6_live_child_accounting 3
    [Ev.createCtx, Ev.createPg 0, Ev.createPg 0, Ev.createPg 0] (by decide)
  exact ⟨h.1, h.2.1 0 (by decide) (by decide), (h.2.2.2 0 1 (by decide)).1⟩

theorem BM.closeContext_nextId (st : BM) (cid : Nat) :
    (st.closeContext cid).nextId = st.nextId := by
  unfold BM.closeContext
  split
  · exact (foldl_decPage_fields _ st).2.2.2.2
  · rfl

theorem BM.createContext_fst (st : BM) : (st.createContext).1 = st.nextId := by
  unfold BM.createContext BM.launchBrowser
  split
  · rfl
  · rfl

/-- One `safeNavigate` call with fewer than two recorded failures, on a
registered context with spare capacity and a healthy check, whose
navigation fails: it records one more failure and reports
`navigation_failed` with `willRetry`. -/
theorem safeNavigate_fail_step (maxPages : Nat) (st : Guard) (cid a : Nat)
    (ha : (mapGet st.navMap cid).getD 0 = a) (h2 : a < 2)
    (hctx : cid ∈ st.bm.contexts)
    (hcap : st.bm.activePages < (maxPages : Int)) :
    safeNavigate ⟨true, false, false⟩ maxPages st cid 3 2 =
      ({ success := false, action := .navigationFailed, attempts := a + 1,
         willRetry := true, useNewContextId := none, navAttempted := true },
       { bm :=
           { st.bm with
             activePages := st.bm.activePages + 1,
             openPages := st.bm.openPages ++ [(cid, st.bm.nextId)],
             nextId := st.bm.nextId + 1 },
         navMap := mapSet st.navMap cid (a + 1) }) := by
  have hth : ¬ (2 ≤ a) := by omega
  have hmax : ¬ (3 ≤ a + 1) := by omega
  have hwr : a + 1 < 3 := by omega
  unfold safeNavigate safeNavigateTail navFailResult BM.createPage
  simp [ha, hth, hmax, hwr, hctx, not_le.mpr hcap]

/-- One `safeNavigate` call with two or more recorded failures: the
recreation gate fires before any navigation, the old counter entry is
deleted and a zero counter is seeded for the fresh id. -/
theorem safeNavigate_recreate_step (maxPages : Nat) (st : Guard) (cid a : Nat)
    (ha : (mapGet st.navMap cid).getD 0 = a) (h2 : 2 ≤ a) :
    safeNavigate ⟨true, false, false⟩ maxPages st cid 3 2 =
      ({ success := true, action := .contextRecreated, attempts := 0,
         willRetry := false,
         useNewContextId := some ((st.bm.closeContext cid).createContext).1,
         navAttempted := false },
       { bm := ((st.bm.closeContext cid).createContext).2,
         navMap := mapSet (mapDelete (mapSet st.navMap cid (a + 1)) cid)
           (((st.bm.closeContext cid).createContext).1) 0 }) := by
  unfold safeNavigate forceRecreateContext
  simp [ha, h2]

/-- C1 counterexample: from a fresh context and counter, with every
navigation failing (`maxAttempts = 3`, `forceRecreateThreshold = 2`),
the SECOND `safeNavigate` call does not trigger recreation — it returns
`navigation_failed` again, because the gate compares the threshold
against the counter value read before this call's increment. -/
theorem c1_counterexample :
    (safeNavigate ⟨true, false, false⟩ 3
      ((safeNavigate ⟨true, false, false⟩ 3
        ⟨(BM.createContext BM.init).2, []⟩ 0 3 2).2) 0 3 2).1.action =
      NavAction.navigationFailed
    ∧ NavAction.navigationFailed ≠ NavAction.contextRecreated := by
  decide

/-- C1 amended: with `maxAttempts = 3, forceRecreateThreshold = 2` and
every navigation failing, the first TWO calls return
`navigation_failed` with `willRetry = true` (attempts 1 and 2); the
THIRD call fires the recreation gate before navigating: it returns
`context_recreated` carrying a fresh distinct id, deletes the old
counter entry, seeds a zero counter for the new id, and attempts no
navigation — so the third configured navigation attempt never runs. -/
theorem c1_guard_recreates_on_third_call (maxPages : Nat) (st : Guard)
    (cid : Nat) (h0 : mapGet st.navMap cid = none)
    (hctx : cid ∈ st.bm.contexts)
    (hcap : st.bm.activePages + 2 ≤ (maxPages : Int))
    (hid : cid < st.bm.nextId) :
    ∃ r1 g1 r2 g2 r3 g3,
      safeNavigate ⟨true, false, false⟩ maxPages st cid 3 2 = (r1, g1)
      ∧ safeNavigate ⟨true, false, false⟩ maxPages g1 cid 3 2 = (r2, g2)
      ∧ safeNavigate ⟨true, false, false⟩ maxPages g2 cid 3 2 = (r3, g3)
      ∧ r1 = { success := false, action := .navigationFailed, attempts := 1,
               willRetry := true, useNewContextId := none,
               navAttempted := true }
      ∧ r2 = { success := false, action := .navigationFailed, attempts := 2,
               willRetry := true, useNewContextId := none,
               navAttempted := true }
      ∧ r3.action = NavAction.contextRecreated
      ∧ r3.navAttempted = false
      ∧ ∃ nid, r3.useNewContextId = some nid
          ∧ nid ≠ cid
          ∧ mapGet g3.navMap nid = some 0
          ∧ mapGet g3.navMap cid = none := by
  have hg0 : (mapGet st.navMap cid).getD 0 = 0 := by rw [h0]; rfl
  let T1 : Guard :=
    ⟨{ st.bm with
       activePages := st.bm.activePages + 1,
       openPages := st.bm.openPages ++ [(cid, st.bm.nextId)],
       nextId := st.bm.nextId + 1 },
     mapSet st.navMap cid 1⟩
  let T2 : Guard :=
    ⟨{ st.bm with
       activePages := st.bm.activePages + 1 + 1,
       openPages := st.bm.openPages ++ [(cid, st.bm.nextId)]
         ++ [(cid, st.bm.nextId + 1)],
       nextId := st.bm.nextId + 1 + 1 },
     mapSet (mapSet st.navMap cid 1) cid 2⟩
  let N : Nat := ((T2.bm.closeContext cid).createContext).1
  have hN : N = st.bm.nextId + 1 + 1 := by
    show ((T2.bm.closeContext cid).createContext).1 = st.bm.nextId + 1 + 1
    rw [BM.createContext_fst, BM.closeContext_nextId]
  have hf1 := safeNavigate_fail_step maxPages st cid 0 hg0 (by omega) hctx
    (by omega)
  have hf2 := safeNavigate_fail_step maxPages T1 cid 1
    (by show (mapGet (mapSet st.navMap cid 1) cid).getD 0 = 1
        rw [mapGet_mapSet_self]
        rfl)
    (by omega) hctx
    (by show st.bm.activePages + 1 < (maxPages : Int); omega)
  have hf3 := safeNavigate_recreate_step maxPages T2 cid 2
    (by show (mapGet (mapSet (mapSet st.navMap cid 1) cid 2) cid).getD 0 = 2
        rw [mapGet_mapSet_self]
        rfl)
    (le_refl 2)
  refine ⟨{ success := false, action := .navigationFailed, attempts := 1,
            willRetry := true, useNewContextId := none,
            navAttempted := true },
          T1,
          { success := false, action := .navigationFailed, attempts := 2,
            willRetry := true, useNewContextId := none,
            navAttempted := true },
          T2,
          { success := true, action := .contextRecreated, attempts := 0,
            willRetry := false, useNewContextId := some N,
            navAttempted := false },
          ⟨((T2.bm.closeContext cid).createContext).2,
           mapSet (mapDelete
             (mapSet (mapSet (mapSet st.navMap cid 1) cid 2) cid 3) cid) N 0⟩,
          hf1, hf2, hf3, rfl, rfl, rfl, rfl,
          ⟨N, rfl, ?_, mapGet_mapSet_self _ _ _, ?_⟩⟩
  · rw [hN]
    omega
  · rw [mapGet_mapSet_ne]
    · exact mapGet_mapDelete_self _ _
    · rw [hN]
      omega

/-- C1 witness: the three-call scenario on a freshly created context. -/
theorem c1_guard_recreates_on_third_call_witness :
    ∃ r1 g1 r2 g2 r3 g3,
      safeNavigate ⟨true, false, false⟩ 3
          ⟨(BM.createContext BM.init).2, []⟩ 0 3 2 = (r1, g1)
      ∧ safeNavigate ⟨true, false, false⟩ 3 g1 0 3 2 = (r2, g2)
      ∧ safeNavigate ⟨true, false, false⟩ 3 g2 0 3 2 = (r3, g3)
      ∧ r1 = { success := false, action := .navigationFailed, attempts := 1,
               willRetry := true, useNewContextId := none,
               navAttempted := true }
      ∧ r2 = { success := false, action := .navigationFailed, attempts := 2,
               willRetry := true, useNewContextId := none,
               navAttempted := true }
      ∧ r3.action = NavAction.contextRecreated
      ∧ r3.navAttempted = false
      ∧ ∃ nid, r3.useNewContextId = some nid
          ∧ nid ≠ 0
          ∧ mapGet g3.navMap nid = some 0
          ∧ mapGet g3.navMap 0 = none :=
  c1_guard_recreates_on_third_call 3 ⟨(BM.createContext BM.init).2, []⟩ 0
    rfl (by decide) (by decide) (by decide)

end PDM

